import Mathlib

/-!
# Siteguard frame-streaming client: a shallow embedding

This file embeds the client-side frame-streaming protocol of the Siteguard
React frontend (`src/frontend-react/src/components/VideoFeed.tsx`,
`components/DriverVideoFeed.tsx`, `pages/SafeDrivingPage.tsx` (`CameraFeed`),
`pages/ErgonomicsPage.tsx` and `pages/JobStatusPage.tsx`
(`VehicleControlPage`)) and proves the claimed properties of that protocol.

Conventions of the embedding:
* A JavaScript `Map<number, ImageData>` (insertion ordered) is a
  `List (Nat × Nat)` in insertion order; image contents are abstracted to `Nat`.
* The content captured from the video element when `frameSequence` becomes `k`
  is `cap k`, for an arbitrary function `cap : Nat → Nat` quantified in the
  theorems (this covers every possible camera behaviour).
* `canvas.toDataURL("image/jpeg", q)` is modelled as the string
  `"data:image/jpeg;base64," ++ enc d` for an arbitrary encoder
  `enc : Nat → String`; `dataUrl.split(",")[1]` is modelled by `jsSplit1`,
  a faithful embedding of the JavaScript `String.split` with separator `","`.
* Browser nondeterminism (when frames are available, when messages arrive,
  when the 5-second recovery timers fire, when the user starts and stops a
  source) is a labelled transition relation `Step` together with `Trace`.
  Times are milliseconds and nondecreasing along a trace.
-/

namespace Siteguard

/-- A detection inside a frame result (`FrameResult.detections` element). -/
structure Detection where
  box : List Int
  class_name : Option String
  confidence : Option Int
deriving Repr, DecidableEq

/-- A violation inside a frame result (`FrameResult.violations` element). -/
structure Violation where
  violation_type : String
  severity : String
deriving Repr, DecidableEq

/-- A parsed inbound websocket message.  The `type` discriminator of the JSON
payload is `mtype`. -/
structure Msg where
  mtype : String
  frame_id : Nat
  timestamp : Option Int
  detections : List Detection
  violations : Option (List Violation)
  latency_ms : Option Int
deriving Repr, DecidableEq

/-! ## JavaScript `Map<number, ImageData>` as an insertion-ordered list -/

/-- The pending-frames map: insertion-ordered association list from
`frame_id` to captured image content. -/
abbrev PendingMap := List (Nat × Nat)

/-- `Map.has(k)`. -/
def mapHas (m : PendingMap) (k : Nat) : Bool :=
  m.any (fun kv => kv.1 == k)

/-- `Map.get(k)` (first entry with key `k`; a JS map has at most one). -/
def mapGet (m : PendingMap) (k : Nat) : Option Nat :=
  (m.find? (fun kv => kv.1 == k)).map (fun kv => kv.2)

/-- `Map.set(k, v)`: overwrite in place when the key exists, else append. -/
def mapSet (m : PendingMap) (k v : Nat) : PendingMap :=
  if mapHas m k then m.map (fun kv => if kv.1 == k then (k, v) else kv)
  else m ++ [(k, v)]

/-- `Map.delete(k)`. -/
def mapDelete (m : PendingMap) (k : Nat) : PendingMap :=
  m.filter (fun kv => kv.1 != k)

/-- The cleanup loop `for (key of map.keys()) if (key < fid) map.delete(key)`. -/
def mapDeleteLt (m : PendingMap) (k : Nat) : PendingMap :=
  m.filter (fun kv => !decide (kv.1 < k))

/-! ## JavaScript `split(",")` -/

/-- `String.split(",")` on the character list of a string. -/
def splitComma : List Char → List (List Char)
  | [] => [[]]
  | c :: cs =>
    if c = ',' then [] :: splitComma cs
    else
      match splitComma cs with
      | [] => [[c]]
      | g :: gs => (c :: g) :: gs

/-- `s.split(",")[1]` : the element at index 1 if it exists (`undefined`
otherwise). -/
def jsSplit1 (s : String) : Option String :=
  ((splitComma s.data).get? 1).map (fun l => String.mk l)

/-- `canvas.toDataURL("image/jpeg", q)` : an `image/jpeg` data URL whose
base64 body is given by the abstract encoder `enc` on the drawn content. -/
def dataURL (enc : Nat → String) (d : Nat) : String :=
  "data:image/jpeg;base64," ++ enc d

/-- `canvas.toDataURL(...).split(",")[1]` : the base64 body extracted by the
components before sending. -/
def encodeBody (enc : Nat → String) (d : Nat) : Option String :=
  jsSplit1 (dataURL enc d)

/-- A well-behaved JPEG base64 encoder: its output is nonempty and contains
no comma (true of base64, whose alphabet is `A-Z a-z 0-9 + / =`). -/
def Base64Ok (enc : Nat → String) : Prop :=
  ∀ d, enc d ≠ "" ∧ ',' ∉ (enc d).data

/-! ## Per-component displayed state and message handlers -/

/-- An entry of the violation log of `VideoFeed` (`setViolationLog`). -/
structure LogEntry where
  id : Nat
  label : String
  severity : String
  timestamp : Option Int
deriving Repr, DecidableEq

/-- The refs of one video-feed component that the protocol updates:
`frameSequence`, `pendingFramesMap`, `capturedFrameRef`, `latestResultRef`
and (for `VideoFeed` only) the violation log. -/
structure FeedState where
  frameSequence : Nat
  pending : PendingMap
  capturedFrame : Option Nat
  latestResult : Option Msg
  violationLog : List LogEntry
deriving Repr, DecidableEq

/-- `VideoFeed.tsx` lines 320-329: annotate the violations of a matched
result for the log. -/
def annotate (m : Msg) (vs : List Violation) : List LogEntry :=
  vs.enum.map (fun iv =>
    { id := m.frame_id * 10 + iv.1
      label := iv.2.violation_type
      severity := iv.2.severity
      timestamp := m.timestamp })

/-- Cleanup after a match (`VideoFeed.tsx` lines 304-308): delete the matched
id, then every key below it. -/
def cleanupPending (m : PendingMap) (fid : Nat) : PendingMap :=
  mapDeleteLt (mapDelete m fid) fid

/-- `VideoFeed.tsx` lines 320-330: prepend the annotated violations and keep
the first 12 entries; results without violations leave the log alone. -/
def logUpdate (log : List LogEntry) (m : Msg) : List LogEntry :=
  match m.violations with
  | some vs => if vs.length ≠ 0 then (annotate m vs ++ log).take 12 else log
  | none => log

/-- `ws.onmessage` of `VideoFeed.tsx` (lines 293-343), restricted to the
fields of `FeedState`.  Only `"frame_result"` payloads whose `frame_id` is in
the pending map update the displayed refs; unmatched results are dropped. -/
def videoFeedOnMessage (s : FeedState) (m : Msg) : FeedState :=
  if m.mtype = "frame_result" then
    if mapHas s.pending m.frame_id then
      { s with
        capturedFrame := mapGet s.pending m.frame_id
        latestResult := some m
        pending := cleanupPending s.pending m.frame_id
        violationLog := logUpdate s.violationLog m }
    else s
  else s

/-- `ws.onmessage` of `DriverVideoFeed.tsx` (lines 193-235).  `"ready"`
messages are skipped; any other message is treated as a result and matched
against the pending map, returning early when unmatched. -/
def driverOnMessage (s : FeedState) (m : Msg) : FeedState :=
  if m.mtype = "ready" then s
  else if mapHas s.pending m.frame_id then
    { s with
      capturedFrame := mapGet s.pending m.frame_id
      latestResult := some m
      pending := cleanupPending s.pending m.frame_id }
  else s

/-- `ws.onmessage` of `SafeDrivingPage.tsx` `CameraFeed` (lines 200-228).
Unlike the other two it keeps going when the frame is not found (latency,
`onResult`, fps), but those writes do not touch the displayed refs. -/
def cameraFeedOnMessage (s : FeedState) (m : Msg) : FeedState :=
  if m.mtype = "ready" then s
  else if mapHas s.pending m.frame_id then
    { s with
      capturedFrame := mapGet s.pending m.frame_id
      latestResult := some m
      pending := cleanupPending s.pending m.frame_id }
  else s

/-- The three components implementing the pending-map protocol. -/
inductive Comp where
  | video
  | driver
  | camera
deriving Repr, DecidableEq

/-- The `ws.onmessage` handler of each component. -/
def onMsg : Comp → FeedState → Msg → FeedState
  | .video, s, m => videoFeedOnMessage s m
  | .driver, s, m => driverOnMessage s m
  | .camera, s, m => cameraFeedOnMessage s m

/-! ## The streaming machine

A machine state bundles the component refs with per-session data: the
`isProcessing` lock-step flag and the pending 5-second recovery timers are
locals of the websocket `useEffect` closure, so a new session (a new run of
the effect) starts with the flag clear and no relevant timers, while the
refs (`frameSequence`, `pendingFramesMap`, `capturedFrameRef`) persist. -/

/-- Full state of one component instance. `offscreen` is the lazily created
offscreen canvas (width, height); `timers` lists the times at which the still
pending recovery timers of the current session were scheduled; `now` is the
current time in ms. -/
structure MachState where
  feed : FeedState
  running : Bool
  isProcessing : Bool
  timers : List Nat
  offscreen : Option (Nat × Nat)
  now : Nat
deriving Repr, DecidableEq

/-- The JSON payload sent for one frame (`VideoFeed.tsx` lines 262-270). -/
structure Payload where
  frame_id : Nat
  timestamp : Int
  capture_width : Nat
  capture_height : Nat
  display_width : Nat
  display_height : Nat
  image : String
deriving Repr, DecidableEq

/-- The offscreen canvas used for this capture: the existing one, or a fresh
640 by 480 canvas when none exists yet (`VideoFeed.tsx` lines 233-239). -/
def theCanvas (st : MachState) : Nat × Nat :=
  st.offscreen.getD (640, 480)

/-- `if (map.size > 100) delete first key` (`VideoFeed.tsx` lines 251-257). -/
def evictOldest (m : PendingMap) : PendingMap :=
  if m.length > 100 then
    match m.head? with
    | some kv => mapDelete m kv.1
    | none => m
  else m

/-- Store the newly captured frame under the next sequence id, then run the
size-above-100 eviction (`VideoFeed.tsx` lines 246-257). -/
def insertFrame (cap : Nat → Nat) (st : MachState) : PendingMap :=
  evictOldest (mapSet st.feed.pending (st.feed.frameSequence + 1)
    (cap (st.feed.frameSequence + 1)))

/-- The payload built for the frame captured from state `st`
(`VideoFeed.tsx` lines 262-270).  `vts` abstracts `video.currentTime`;
`disp` is the display canvas size when the ref is non-null. -/
def sendPayload (cap : Nat → Nat) (enc : Nat → String) (vts : Nat → Int)
    (disp : Option (Nat × Nat)) (st : MachState) : Payload :=
  let fid := st.feed.frameSequence + 1
  let c := theCanvas st
  { frame_id := fid
    timestamp := vts fid
    capture_width := c.1
    capture_height := c.2
    display_width := (disp.getD c).1
    display_height := (disp.getD c).2
    image := (encodeBody enc (cap fid)).getD "" }

/-- State after a successful capture-and-send: sequence bumped, frame stored,
lock-step flag set, a 5-second recovery timer scheduled. -/
def sendPost (cap : Nat → Nat) (st : MachState) (t : Nat) : MachState :=
  { st with
    feed := { st.feed with
      frameSequence := st.feed.frameSequence + 1
      pending := insertFrame cap st }
    offscreen := some (theCanvas st)
    isProcessing := true
    timers := st.timers ++ [t]
    now := t }

/-- State after a capture whose encoded body came out missing or empty
(`if (base64)` fails): the frame was stored and the id consumed, but nothing
was sent, the flag stays clear and no timer is scheduled. -/
def capturePost (cap : Nat → Nat) (st : MachState) (t : Nat) : MachState :=
  { st with
    feed := { st.feed with
      frameSequence := st.feed.frameSequence + 1
      pending := insertFrame cap st }
    offscreen := some (theCanvas st)
    now := t }

/-- Observable events of one component instance. -/
inductive TEvent where
  | start (t : Nat)
  | stop (t : Nat)
  | close (t : Nat)
  | send (t : Nat) (p : Payload)
  | captureNoSend (t : Nat)
  | recv (t : Nat) (m : Msg)
  | recvJunk (t : Nat)
  | timeout (t tSend : Nat)
deriving Repr, DecidableEq

/-- A step of one component instance.

* `start`: the websocket effect runs and `processLoop` starts (`ws.onopen`);
  the closure-local flag and timer set are fresh.
* `stop`: `stopEverything` — clears `latestResultRef` and the violation log,
  leaves `capturedFrameRef`, `pendingFramesMap` and `frameSequence` alone.
* `close`: `ws.onclose`/`ws.onerror` — the loop dies with the socket; refs
  are untouched.
* `send`: the successful path through `processLoop`: loop running, lock-step
  flag clear, at most 2 pending frames, and the encoded body truthy.
* `captureNoSend`: the same path when `split(",")[1]` is `undefined` or `""`:
  the frame is stored and the id consumed but nothing is sent.
* `recv`: `ws.onmessage` — clears the flag, then runs the handler.
* `recvJunk`: a message whose JSON parse throws — only clears the flag.
* `timeout`: a pending 5-second recovery timer of this session fires, at
  least 5000 ms after the send that scheduled it, and clears the flag. -/
inductive Step (cap : Nat → Nat) (enc : Nat → String) (vts : Nat → Int)
    (disp : Option (Nat × Nat)) (comp : Comp) :
    MachState → TEvent → MachState → Prop where
  | start : ∀ st t, st.now ≤ t → st.running = false →
      Step cap enc vts disp comp st (.start t)
        { st with running := true, isProcessing := false, timers := [], now := t }
  | stop : ∀ st t, st.now ≤ t →
      Step cap enc vts disp comp st (.stop t)
        { st with
          feed := { st.feed with latestResult := none, violationLog := [] }
          running := false
          now := t }
  | close : ∀ st t, st.now ≤ t →
      Step cap enc vts disp comp st (.close t)
        { st with running := false, now := t }
  | send : ∀ st t p, st.now ≤ t → st.running = true →
      st.isProcessing = false →
      ¬ 2 < st.feed.pending.length →
      (∃ b, encodeBody enc (cap (st.feed.frameSequence + 1)) = some b ∧ b ≠ "") →
      p = sendPayload cap enc vts disp st →
      Step cap enc vts disp comp st (.send t p) (sendPost cap st t)
  | captureNoSend : ∀ st t, st.now ≤ t → st.running = true →
      st.isProcessing = false →
      ¬ 2 < st.feed.pending.length →
      (∀ b, encodeBody enc (cap (st.feed.frameSequence + 1)) = some b → b = "") →
      Step cap enc vts disp comp st (.captureNoSend t) (capturePost cap st t)
  | recv : ∀ st t m, st.now ≤ t → st.running = true →
      Step cap enc vts disp comp st (.recv t m)
        { st with feed := onMsg comp st.feed m, isProcessing := false, now := t }
  | recvJunk : ∀ st t, st.now ≤ t → st.running = true →
      Step cap enc vts disp comp st (.recvJunk t)
        { st with isProcessing := false, now := t }
  | timeout : ∀ st t tS, st.now ≤ t → tS ∈ st.timers → tS + 5000 ≤ t →
      Step cap enc vts disp comp st (.timeout t tS)
        { st with isProcessing := false, timers := st.timers.erase tS, now := t }

/-- A run of the machine along a list of events. -/
inductive Trace (cap : Nat → Nat) (enc : Nat → String) (vts : Nat → Int)
    (disp : Option (Nat × Nat)) (comp : Comp) :
    MachState → List TEvent → MachState → Prop where
  | nil : ∀ st, Trace cap enc vts disp comp st [] st
  | cons : ∀ {st e st2 es st3},
      Step cap enc vts disp comp st e st2 →
      Trace cap enc vts disp comp st2 es st3 →
      Trace cap enc vts disp comp st (e :: es) st3

/-- The state of a freshly mounted component: all refs at their `useRef`
initial values. -/
def initState : MachState :=
  { feed :=
      { frameSequence := 0
        pending := []
        capturedFrame := none
        latestResult := none
        violationLog := [] }
    running := false
    isProcessing := false
    timers := []
    offscreen := none
    now := 0 }

/-- Event classifiers used to phrase trace-level side conditions. -/
def isRecvEvent : TEvent → Bool
  | .recv _ _ => true
  | .recvJunk _ => true
  | _ => false

def isSendEvent : TEvent → Bool
  | .send _ _ => true
  | _ => false

def isStartEvent : TEvent → Bool
  | .start _ => true
  | _ => false

def isCaptureEvent : TEvent → Bool
  | .captureNoSend _ => true
  | _ => false

/-! ## ErgonomicsPage and VehicleControlPage

These two pages (`ErgonomicsPage.tsx` lines 180-237 and 344-363;
`JobStatusPage.tsx` lines 159-330, `VehicleControlPage`) share the same
logic: the render loop calls `sendFrame` whenever at least `SEND_INTERVAL`
(100 ms) has passed since the last send, with no lock-step flag and no
pending-frames map, and `ws.onmessage` stores any payload whose `type` is
`"result"` without matching it to a sent frame. -/

/-- State of `ErgonomicsPage` / `VehicleControlPage`: the latest displayed
result and the `lastSendTime` local of the render loop. -/
structure SimpleState where
  latestResult : Option Msg
  lastSendTime : Nat
  now : Nat
deriving Repr, DecidableEq

/-- `ws.onmessage` of `ErgonomicsPage.tsx` (lines 190-205): any `"result"`
payload becomes the latest result, unconditionally. -/
def ergoOnMessage (s : SimpleState) (m : Msg) : SimpleState :=
  if m.mtype = "result" then { s with latestResult := some m } else s

/-- `ws.onmessage` of `VehicleControlPage` (`JobStatusPage.tsx` lines
184-199): identical to `ergoOnMessage`. -/
def vehicleOnMessage (s : SimpleState) (m : Msg) : SimpleState :=
  if m.mtype = "result" then { s with latestResult := some m } else s

/-- Events of the simple (interval-paced) machines. -/
inductive SimpleEvent where
  | send (t : Nat)
  | recv (t : Nat) (m : Msg)
deriving Repr, DecidableEq

/-- A step of `ErgonomicsPage` / `VehicleControlPage`: a send fires whenever
100 ms have passed since the previous one, regardless of outstanding frames;
a receive runs the handler. -/
inductive SimpleStep (hdl : SimpleState → Msg → SimpleState) :
    SimpleState → SimpleEvent → SimpleState → Prop where
  | send : ∀ s t, s.now ≤ t → s.lastSendTime + 100 ≤ t →
      SimpleStep hdl s (.send t) { s with lastSendTime := t, now := t }
  | recv : ∀ s t m, s.now ≤ t →
      SimpleStep hdl s (.recv t m) { hdl s m with now := t }

/-- A run of the simple machine. -/
inductive SimpleTrace (hdl : SimpleState → Msg → SimpleState) :
    SimpleState → List SimpleEvent → SimpleState → Prop where
  | nil : ∀ s, SimpleTrace hdl s [] s
  | cons : ∀ {s e s2 es s3},
      SimpleStep hdl s e s2 →
      SimpleTrace hdl s2 es s3 →
      SimpleTrace hdl s (e :: es) s3

/-- State right after `connectWs`: nothing displayed, nothing sent. -/
def simpleInit : SimpleState :=
  { latestResult := none, lastSendTime := 0, now := 0 }

/-! ## StatsPanel compliance score (`VideoFeed.tsx` lines 24-52) -/

/-- `(d.class_name || "").toLowerCase()`. -/
def clsOf (d : Detection) : String :=
  (d.class_name.getD "").toLower

/-- `cls.startsWith("no ") || cls.startsWith("no_")`. -/
def isViolationCls (c : String) : Bool :=
  c.startsWith "no " || c.startsWith "no_"

/-- The `violations` counter of the `forEach` over `result.detections`
(`VideoFeed.tsx` lines 28-46), restricted to the part feeding the score. -/
def countViolations (dets : List Detection) : Nat :=
  dets.foldl (fun acc d => if isViolationCls (clsOf d) then acc + 1 else acc) 0

/-- `Math.max(0, 100 - violations * 20)` (`VideoFeed.tsx` line 50). -/
def calculatedScore (dets : List Detection) : Int :=
  max 0 (100 - 20 * (countViolations dets : Int))

/-- The literal reading of the claim: within one streaming session the
outbound ids form the sequence `1, 2, 3, ...`, so in particular the first
frame sent after a session start always carries `frame_id` 1. -/
def SessionRestartsAtOne : Prop :=
  ∀ (cap : Nat → Nat) (enc : Nat → String) (vts : Nat → Int)
    (disp : Option (Nat × Nat)) (comp : Comp) (evs : List TEvent)
    (st : MachState) (l₁ : List TEvent) (t₀ : Nat) (l₂ : List TEvent)
    (t : Nat) (p : Payload) (l₃ : List TEvent),
    Trace cap enc vts disp comp initState evs st →
    evs = l₁ ++ TEvent.start t₀ :: (l₂ ++ TEvent.send t p :: l₃) →
    (∀ e ∈ l₂, isSendEvent e = false ∧ isCaptureEvent e = false ∧
      isStartEvent e = false) →
    p.frame_id = 1

/-- The literal reading of the claim: once a frame has been sent, no further
frame is sent until either a message arrives or 5000 ms have elapsed since
that send. -/
def LockStepLiteral : Prop :=
  ∀ (cap : Nat → Nat) (enc : Nat → String) (vts : Nat → Int)
    (disp : Option (Nat × Nat)) (comp : Comp) (evs : List TEvent)
    (st : MachState) (l₁ : List TEvent) (t₁ : Nat) (p₁ : Payload)
    (l₂ : List TEvent) (t₂ : Nat) (p₂ : Payload) (l₃ : List TEvent),
    Trace cap enc vts disp comp initState evs st →
    evs = l₁ ++ TEvent.send t₁ p₁ :: (l₂ ++ TEvent.send t₂ p₂ :: l₃) →
    (∀ e ∈ l₂, isRecvEvent e = false ∧ isSendEvent e = false ∧
      isStartEvent e = false) →
    t₁ + 5000 ≤ t₂

/-- The claim instance for `ErgonomicsPage` (identically
`VehicleControlPage`): it never sends a second frame while the previous one
is unacknowledged. -/
def ErgoNeverTwoSendsUnacked : Prop :=
  ∀ (evs : List SimpleEvent) (s : SimpleState) (l₁ : List SimpleEvent)
    (t₁ : Nat) (l₂ : List SimpleEvent) (t₂ : Nat) (l₃ : List SimpleEvent),
    SimpleTrace ergoOnMessage simpleInit evs s →
    evs = l₁ ++ SimpleEvent.send t₁ :: (l₂ ++ SimpleEvent.send t₂ :: l₃) →
    (∀ e ∈ l₂, ∀ t m, e ≠ SimpleEvent.recv t m) →
    False

/-- The claim instance for `ErgonomicsPage`: a result is only used after
being matched to the outbound frame that produced it; in particular, if no
frame was ever sent, no result can be displayed. -/
def ErgoUsesOnlyMatchedResults : Prop :=
  ∀ (evs : List SimpleEvent) (s : SimpleState),
    SimpleTrace ergoOnMessage simpleInit evs s →
    (∀ e ∈ evs, ∀ t, e ≠ SimpleEvent.send t) →
    s.latestResult = none

/-- The literal reading of the claim, at its `ErgonomicsPage` instance: the
component refuses to send an additional frame while prior frames are
unacknowledged, and matches each result back to the exact outbound frame
that produced it before using it. -/
def FiveComponentProtocol : Prop :=
  ErgoNeverTwoSendsUnacked ∧ ErgoUsesOnlyMatchedResults

/-! ## Concrete scenario data used by witnesses and counterexamples -/

/-- A concrete camera: frame `k` has content `k`. -/
def capW : Nat → Nat := fun n => n

/-- A concrete well-behaved JPEG encoder. -/
def encW : Nat → String := fun _ => "QUJD"

/-- A concrete `video.currentTime`. -/
def vtsW : Nat → Int := fun _ => 0

/-- A concrete `"frame_result"` message for frame `fid`. -/
def msgW (fid : Nat) : Msg :=
  { mtype := "frame_result", frame_id := fid, timestamp := none
    detections := [], violations := none, latency_ms := none }

/-- A concrete `"result"` message never matched by any outbound frame. -/
def mResW : Msg :=
  { mtype := "result", frame_id := 999, timestamp := none
    detections := [], violations := none, latency_ms := none }

/-- A concrete violation and a matched result carrying it. -/
def vW : Violation := { violation_type := "no_helmet", severity := "high" }

def mV : Msg :=
  { mtype := "frame_result", frame_id := 7, timestamp := none
    detections := [], violations := some [vW], latency_ms := none }

/-- A concrete feed state with frame 7 pending. -/
def sW1 : FeedState :=
  { frameSequence := 7, pending := [(7, 42)], capturedFrame := none
    latestResult := none, violationLog := [] }

/-- A concrete feed state with frames 1, 2, 3 pending. -/
def sW7 : FeedState :=
  { frameSequence := 3, pending := [(1, 10), (2, 20), (3, 30)]
    capturedFrame := none, latestResult := none, violationLog := [] }

/-- States along the scenario `start, send, recv, send, stale timeout fires,
send`: the third frame goes out 1000 ms after the second with no message in
between. -/
def wSt1 : MachState :=
  { initState with running := true, isProcessing := false, timers := [], now := 0 }

def wPay1 : Payload := sendPayload capW encW vtsW none wSt1

def wSt2 : MachState := sendPost capW wSt1 0

def wSt3 : MachState :=
  { wSt2 with
    feed := onMsg Comp.video wSt2.feed (msgW 1)
    isProcessing := false
    now := 4000 }

def wPay2 : Payload := sendPayload capW encW vtsW none wSt3

def wSt4 : MachState := sendPost capW wSt3 4001

def wSt5 : MachState :=
  { wSt4 with isProcessing := false, timers := wSt4.timers.erase 0, now := 5000 }

def wPay3 : Payload := sendPayload capW encW vtsW none wSt5

def wSt6 : MachState := sendPost capW wSt5 5001

/-- Final state of the short scenario `start, send, recv` at time 0. -/
def wSt3b : MachState :=
  { wSt2 with
    feed := onMsg Comp.video wSt2.feed (msgW 1)
    isProcessing := false
    now := 0 }

/-- States along the scenario `start, send, stop, start, send`: the second
session starts with `frameSequence` still at 1. -/
def wrSt3 : MachState :=
  { wSt2 with
    feed := { wSt2.feed with latestResult := none, violationLog := [] }
    running := false, now := 0 }

def wrSt4 : MachState :=
  { wrSt3 with running := true, isProcessing := false, timers := [], now := 0 }

def wrPay2 : Payload := sendPayload capW encW vtsW none wrSt4

def wrSt5 : MachState := sendPost capW wrSt4 0

/-! ## Helper lemmas: the split function -/

lemma splitComma_of_not_mem (l : List Char) (h : ',' ∉ l) : splitComma l = [l] := by
  induction l with
  | nil => rfl
  | cons c cs ih =>
    have hc : ¬ c = ',' := fun hcc => h (hcc ▸ List.mem_cons_self c cs)
    have hcs : ',' ∉ cs := fun hm => h (List.mem_cons_of_mem c hm)
    simp only [splitComma, if_neg hc, ih hcs]

lemma splitComma_append (a b : List Char) (ha : ',' ∉ a) :
    splitComma (a ++ ',' :: b) = a :: splitComma b := by
  induction a with
  | nil => simp [splitComma]
  | cons c cs ih =>
    have hc : ¬ c = ',' := fun hcc => ha (hcc ▸ List.mem_cons_self c cs)
    have hcs : ',' ∉ cs := fun hm => ha (List.mem_cons_of_mem c hm)
    simp only [List.cons_append, splitComma, if_neg hc, List.append_eq]
    rw [ih hcs]

/-- For a well-behaved encoder, the body extracted from the data URL is the
encoder output itself. -/
lemma encodeBody_ok (enc : Nat → String) (d : Nat)
    (h2 : ',' ∉ (enc d).data) : encodeBody enc d = some (enc d) := by
  have hdata : (dataURL enc d).data =
      "data:image/jpeg;base64".data ++ ',' :: (enc d).data := by
    show ("data:image/jpeg;base64," ++ enc d).data = _
    rw [String.data_append]
    rfl
  have hpre : ',' ∉ ("data:image/jpeg;base64" : String).data := by decide
  unfold encodeBody jsSplit1
  rw [hdata, splitComma_append _ _ hpre, splitComma_of_not_mem _ h2]
  rfl

/-! ## Helper lemmas: the pending map -/

lemma mapHas_iff {m : PendingMap} {k : Nat} :
    mapHas m k = true ↔ ∃ v, (k, v) ∈ m := by
  unfold mapHas
  rw [List.any_eq_true]
  constructor
  · rintro ⟨⟨k', v⟩, hmem, hk⟩
    have hkk : k' = k := by simpa using hk
    subst hkk
    exact ⟨v, hmem⟩
  · rintro ⟨v, hmem⟩
    exact ⟨(k, v), hmem, beq_self_eq_true k⟩

lemma mapGet_mem {m : PendingMap} {k : Nat} (h : mapHas m k = true) :
    ∃ v, mapGet m k = some v ∧ (k, v) ∈ m := by
  unfold mapHas at h
  have hsome : (m.find? (fun kv => kv.1 == k)).isSome = true := by
    rw [List.find?_isSome]
    exact (List.any_eq_true).mp h
  obtain ⟨kv, hkv⟩ := Option.isSome_iff_exists.mp hsome
  have hp := List.find?_some (p := fun kv : Nat × Nat => kv.1 == k) hkv
  have hk : kv.1 = k := by simpa using hp
  have hmem : kv ∈ m := List.mem_of_find?_eq_some hkv
  refine ⟨kv.2, ?_, ?_⟩
  · unfold mapGet
    rw [hkv]
    rfl
  · have hmem' : (kv.1, kv.2) ∈ m := hmem
    rw [hk] at hmem'
    exact hmem'

lemma mem_mapSet {m : PendingMap} {k v : Nat} {kv : Nat × Nat}
    (h : kv ∈ mapSet m k v) : kv ∈ m ∨ kv = (k, v) := by
  unfold mapSet at h
  split at h
  · obtain ⟨kv0, hmem, heq⟩ := List.mem_map.mp h
    by_cases hk : kv0.1 == k
    · right
      simp only [hk, if_pos] at heq
      exact heq.symm
    · left
      simp only [hk, if_neg, Bool.false_eq_true, reduceIte] at heq
      exact heq ▸ hmem
  · rcases List.mem_append.mp h with h1 | h1
    · exact Or.inl h1
    · exact Or.inr (List.mem_singleton.mp h1)

lemma length_mapSet (m : PendingMap) (k v : Nat) :
    (mapSet m k v).length ≤ m.length + 1 := by
  unfold mapSet
  split
  · rw [List.length_map]; omega
  · rw [List.length_append]; rfl

lemma mem_evictOldest {m : PendingMap} {kv : Nat × Nat}
    (h : kv ∈ evictOldest m) : kv ∈ m := by
  unfold evictOldest at h
  split at h
  · split at h
    · exact (List.mem_filter.mp h).1
    · exact h
  · exact h

lemma length_evictOldest (m : PendingMap) : (evictOldest m).length ≤ m.length := by
  unfold evictOldest
  split
  · split
    · exact List.length_filter_le _ _
    · exact le_rfl
  · exact le_rfl

lemma mem_cleanupPending {m : PendingMap} {fid : Nat} {kv : Nat × Nat} :
    kv ∈ cleanupPending m fid ↔ kv ∈ m ∧ fid < kv.1 := by
  unfold cleanupPending mapDeleteLt mapDelete
  rw [List.mem_filter, List.mem_filter]
  constructor
  · rintro ⟨⟨hmem, hne⟩, hlt⟩
    have h1 : kv.1 ≠ fid := bne_iff_ne.mp hne
    have h2 : ¬ kv.1 < fid := by simpa using hlt
    exact ⟨hmem, by omega⟩
  · rintro ⟨hmem, hgt⟩
    refine ⟨⟨hmem, bne_iff_ne.mpr (by omega)⟩, by simp; omega⟩

lemma length_cleanupPending (m : PendingMap) (fid : Nat) :
    (cleanupPending m fid).length ≤ m.length :=
  le_trans (List.length_filter_le _ _) (List.length_filter_le _ _)

/-! ## Helper lemmas: the handlers -/

lemma logUpdate_length {log : List LogEntry} (m : Msg) (h : log.length ≤ 12) :
    (logUpdate log m).length ≤ 12 := by
  unfold logUpdate
  split
  · split
    · rw [List.length_take]; omega
    · exact h
  · exact h

/-- Each handler either leaves the displayed refs, the map and the log alone,
or performs the matched update: captured frame from the map, latest result
from the message, map cleaned up, log either untouched or updated. -/
lemma onMsg_cases (comp : Comp) (s : FeedState) (m : Msg) :
    ((onMsg comp s m).capturedFrame = s.capturedFrame ∧
     (onMsg comp s m).latestResult = s.latestResult ∧
     (onMsg comp s m).pending = s.pending ∧
     (onMsg comp s m).violationLog = s.violationLog) ∨
    (mapHas s.pending m.frame_id = true ∧
     (onMsg comp s m).capturedFrame = mapGet s.pending m.frame_id ∧
     (onMsg comp s m).latestResult = some m ∧
     (onMsg comp s m).pending = cleanupPending s.pending m.frame_id ∧
     ((onMsg comp s m).violationLog = s.violationLog ∨
      (onMsg comp s m).violationLog = logUpdate s.violationLog m)) := by
  cases comp
  case video =>
    by_cases ht : m.mtype = "frame_result"
    · by_cases h : mapHas s.pending m.frame_id
      · right
        refine ⟨h, ?_, ?_, ?_, Or.inr ?_⟩ <;>
          simp [onMsg, videoFeedOnMessage, ht, h]
      · left
        simp [onMsg, videoFeedOnMessage, ht, h]
    · left
      simp [onMsg, videoFeedOnMessage, ht]
  case driver =>
    by_cases ht : m.mtype = "ready"
    · left
      simp [onMsg, driverOnMessage, ht]
    · by_cases h : mapHas s.pending m.frame_id
      · right
        refine ⟨h, ?_, ?_, ?_, Or.inl ?_⟩ <;>
          simp [onMsg, driverOnMessage, ht, h]
      · left
        simp [onMsg, driverOnMessage, ht, h]
  case camera =>
    by_cases ht : m.mtype = "ready"
    · left
      simp [onMsg, cameraFeedOnMessage, ht]
    · by_cases h : mapHas s.pending m.frame_id
      · right
        refine ⟨h, ?_, ?_, ?_, Or.inl ?_⟩ <;>
          simp [onMsg, cameraFeedOnMessage, ht, h]
      · left
        simp [onMsg, cameraFeedOnMessage, ht, h]

lemma onMsg_frameSequence (comp : Comp) (s : FeedState) (m : Msg) :
    (onMsg comp s m).frameSequence = s.frameSequence := by
  cases comp <;>
    simp only [onMsg, videoFeedOnMessage, driverOnMessage, cameraFeedOnMessage] <;>
    split_ifs <;> rfl

/-! ## Machine invariant -/

/-- Invariant of every reachable state: pending entries store the frame
captured for their key, the displayed result and frame agree on their origin,
the map is bounded by 3, the log by 12, timers were scheduled in the past,
and the offscreen canvas (once created) is 640 by 480. -/
def Inv (cap : Nat → Nat) (st : MachState) : Prop :=
  (∀ kv ∈ st.feed.pending, kv.2 = cap kv.1) ∧
  (∀ r, st.feed.latestResult = some r →
    st.feed.capturedFrame = some (cap r.frame_id)) ∧
  st.feed.pending.length ≤ 3 ∧
  st.feed.violationLog.length ≤ 12 ∧
  (∀ x ∈ st.timers, x ≤ st.now) ∧
  (st.offscreen = none ∨ st.offscreen = some (640, 480))

lemma inv_initState (cap : Nat → Nat) : Inv cap initState := by
  refine ⟨?_, ?_, ?_, ?_, ?_, Or.inl rfl⟩ <;> simp [initState]

lemma theCanvas_eq {st : MachState}
    (h : st.offscreen = none ∨ st.offscreen = some (640, 480)) :
    theCanvas st = (640, 480) := by
  rcases h with h | h <;> simp [theCanvas, h]

lemma mem_insertFrame {cap : Nat → Nat} {st : MachState} {kv : Nat × Nat}
    (h : kv ∈ insertFrame cap st) :
    kv ∈ st.feed.pending ∨
      kv = (st.feed.frameSequence + 1, cap (st.feed.frameSequence + 1)) :=
  mem_mapSet (mem_evictOldest h)

lemma length_insertFrame (cap : Nat → Nat) (st : MachState) :
    (insertFrame cap st).length ≤ st.feed.pending.length + 1 :=
  le_trans (length_evictOldest _) (length_mapSet _ _ _)

lemma inv_step {cap : Nat → Nat} {enc : Nat → String} {vts : Nat → Int}
    {disp : Option (Nat × Nat)} {comp : Comp} {st : MachState} {e : TEvent}
    {st' : MachState} (hs : Step cap enc vts disp comp st e st')
    (hI : Inv cap st) : Inv cap st' := by
  obtain ⟨hPend, hSync, hLen, hLog, hTm, hCv⟩ := hI
  cases hs with
  | start t ht hr =>
    exact ⟨hPend, hSync, hLen, hLog, by simp, hCv⟩
  | stop t ht =>
    refine ⟨hPend, by simp, hLen, by simp, fun x hx => le_trans (hTm x hx) ht, hCv⟩
  | close t ht =>
    exact ⟨hPend, hSync, hLen, hLog, fun x hx => le_trans (hTm x hx) ht, hCv⟩
  | send t p ht hr hip hbp henc hp =>
    refine ⟨?_, hSync, ?_, hLog, ?_, Or.inr ?_⟩
    · intro kv hkv
      rcases mem_insertFrame hkv with h | h
      · exact hPend kv h
      · rw [h]
    · exact le_trans (length_insertFrame cap st) (by omega)
    · intro x hx
      rcases List.mem_append.mp hx with h | h
      · exact le_trans (hTm x h) ht
      · rw [List.mem_singleton.mp h]
        exact le_rfl
    · show some (theCanvas st) = some (640, 480)
      rw [theCanvas_eq hCv]
  | captureNoSend t ht hr hip hbp henc =>
    refine ⟨?_, hSync, ?_, hLog, fun x hx => le_trans (hTm x hx) ht, Or.inr ?_⟩
    · intro kv hkv
      rcases mem_insertFrame hkv with h | h
      · exact hPend kv h
      · rw [h]
    · exact le_trans (length_insertFrame cap st) (by omega)
    · show some (theCanvas st) = some (640, 480)
      rw [theCanvas_eq hCv]
  | recv t m ht hr =>
    rcases onMsg_cases comp st.feed m with ⟨hc, hl, hp, hlog⟩ | ⟨hhas, hc, hl, hp, hlog⟩
    · refine ⟨?_, ?_, ?_, ?_, fun x hx => le_trans (hTm x hx) ht, hCv⟩
      · show ∀ kv ∈ (onMsg comp st.feed m).pending, kv.2 = cap kv.1
        rw [hp]; exact hPend
      · show ∀ r, (onMsg comp st.feed m).latestResult = some r → _
        rw [hl, hc]; exact hSync
      · show (onMsg comp st.feed m).pending.length ≤ 3
        rw [hp]; exact hLen
      · show (onMsg comp st.feed m).violationLog.length ≤ 12
        rw [hlog]; exact hLog
    · refine ⟨?_, ?_, ?_, ?_, fun x hx => le_trans (hTm x hx) ht, hCv⟩
      · show ∀ kv ∈ (onMsg comp st.feed m).pending, kv.2 = cap kv.1
        rw [hp]
        intro kv hkv
        exact hPend kv (mem_cleanupPending.mp hkv).1
      · show ∀ r, (onMsg comp st.feed m).latestResult = some r → _
        rw [hl, hc]
        intro r hrr
        obtain rfl : m = r := by injection hrr
        obtain ⟨v, hget, hmem⟩ := mapGet_mem hhas
        rw [hget]
        have := hPend (m.frame_id, v) hmem
        simp only at this
        rw [this]
      · show (onMsg comp st.feed m).pending.length ≤ 3
        rw [hp]; exact le_trans (length_cleanupPending _ _) hLen
      · show (onMsg comp st.feed m).violationLog.length ≤ 12
        rcases hlog with hlog | hlog
        · rw [hlog]; exact hLog
        · rw [hlog]; exact logUpdate_length m hLog
  | recvJunk t ht hr =>
    exact ⟨hPend, hSync, hLen, hLog, fun x hx => le_trans (hTm x hx) ht, hCv⟩
  | timeout t tS ht htS h5 =>
    refine ⟨hPend, hSync, hLen, hLog, ?_, hCv⟩
    intro x hx
    exact le_trans (hTm x (List.mem_of_mem_erase hx)) ht

lemma inv_trace {cap : Nat → Nat} {enc : Nat → String} {vts : Nat → Int}
    {disp : Option (Nat × Nat)} {comp : Comp} {st : MachState} {l : List TEvent}
    {st' : MachState} (htr : Trace cap enc vts disp comp st l st')
    (hI : Inv cap st) : Inv cap st' := by
  induction htr with
  | nil => exact hI
  | cons hstep _ ih => exact ih (inv_step hstep hI)

/-! ## Trace infrastructure -/

lemma now_mono_step {cap : Nat → Nat} {enc : Nat → String} {vts : Nat → Int}
    {disp : Option (Nat × Nat)} {comp : Comp} {st : MachState} {e : TEvent}
    {st' : MachState} (hs : Step cap enc vts disp comp st e st') :
    st.now ≤ st'.now := by
  cases hs <;> assumption

lemma now_mono_trace {cap : Nat → Nat} {enc : Nat → String} {vts : Nat → Int}
    {disp : Option (Nat × Nat)} {comp : Comp} {st : MachState} {l : List TEvent}
    {st' : MachState} (htr : Trace cap enc vts disp comp st l st') :
    st.now ≤ st'.now := by
  induction htr with
  | nil => exact le_rfl
  | cons hstep _ ih => exact le_trans (now_mono_step hstep) ih

/-- Split a trace at a distinguished event. -/
lemma trace_append {cap : Nat → Nat} {enc : Nat → String} {vts : Nat → Int}
    {disp : Option (Nat × Nat)} {comp : Comp} {l₁ : List TEvent} :
    ∀ {st : MachState} {e : TEvent} {l₂ : List TEvent} {st'' : MachState},
    Trace cap enc vts disp comp st (l₁ ++ e :: l₂) st'' →
    ∃ m1 m2, Trace cap enc vts disp comp st l₁ m1 ∧
      Step cap enc vts disp comp m1 e m2 ∧
      Trace cap enc vts disp comp m2 l₂ st'' := by
  induction l₁ with
  | nil =>
    intro st e l₂ st'' htr
    rcases htr with _ | ⟨hstep, htr2⟩
    exact ⟨st, _, Trace.nil st, hstep, htr2⟩
  | cons f l₁ ih =>
    intro st e l₂ st'' htr
    rcases htr with _ | ⟨hstep, htr2⟩
    obtain ⟨m1, m2, h1, h2, h3⟩ := ih htr2
    exact ⟨m1, m2, Trace.cons hstep h1, h2, h3⟩

lemma running_false_step {cap : Nat → Nat} {enc : Nat → String} {vts : Nat → Int}
    {disp : Option (Nat × Nat)} {comp : Comp} {st : MachState} {e : TEvent}
    {st' : MachState} (hs : Step cap enc vts disp comp st e st')
    (hne : isStartEvent e = false) (hr : st.running = false) :
    st'.running = false := by
  cases hs with
  | start t ht hr0 => simp [isStartEvent] at hne
  | stop t ht => rfl
  | close t ht => rfl
  | send t p ht hr0 hip hbp henc hp => rw [hr0] at hr; exact absurd hr (by simp)
  | captureNoSend t ht hr0 hip hbp henc => rw [hr0] at hr; exact absurd hr (by simp)
  | recv t m ht hr0 => rw [hr0] at hr; exact absurd hr (by simp)
  | recvJunk t ht hr0 => rw [hr0] at hr; exact absurd hr (by simp)
  | timeout t tS ht htS h5 => exact hr

lemma running_false_trace {cap : Nat → Nat} {enc : Nat → String} {vts : Nat → Int}
    {disp : Option (Nat × Nat)} {comp : Comp} {st : MachState} {l : List TEvent}
    {st' : MachState} (htr : Trace cap enc vts disp comp st l st') :
    (∀ e ∈ l, isStartEvent e = false) → st.running = false → st'.running = false := by
  induction htr with
  | nil => exact fun _ h => h
  | @cons st e st2 es st3 hstep htr2 ih =>
    intro hev hr
    exact ih (fun f hf => hev f (List.mem_cons_of_mem e hf))
      (running_false_step hstep (hev e (List.mem_cons_self e es)) hr)

/-- The central lock-step walk: starting with the flag set, in a stretch of
the trace with no inbound message, no send and no session start, the flag can
only be cleared by a pending recovery timer of the current session firing at
least 5000 ms after it was scheduled. -/
lemma lockstep_go {cap : Nat → Nat} {enc : Nat → String} {vts : Nat → Int}
    {disp : Option (Nat × Nat)} {comp : Comp} {st : MachState} {l : List TEvent}
    {st' : MachState} (T : Nat) (htr : Trace cap enc vts disp comp st l st') :
    (∀ e ∈ l, isRecvEvent e = false ∧ isSendEvent e = false ∧
      isStartEvent e = false) →
    st.isProcessing = true → st.running = true → (∀ x ∈ st.timers, x ≤ T) →
    st'.running = false ∨ st'.isProcessing = true ∨
      ∃ tf tS, TEvent.timeout tf tS ∈ l ∧ tS ≤ T ∧ tS + 5000 ≤ tf ∧
        tf ≤ st'.now := by
  induction htr with
  | nil => exact fun _ hip _ _ => Or.inr (Or.inl hip)
  | @cons st e st2 es st3 hstep htr2 ih =>
    intro hev hip hr htm
    have hevh := hev e (List.mem_cons_self e es)
    have hevt : ∀ f ∈ es, isRecvEvent f = false ∧ isSendEvent f = false ∧
        isStartEvent f = false := fun f hf => hev f (List.mem_cons_of_mem e hf)
    cases hstep with
    | start t ht hr0 => simp [isStartEvent] at hevh
    | recv t m ht hr0 => simp [isRecvEvent] at hevh
    | recvJunk t ht hr0 => simp [isRecvEvent] at hevh
    | send t p ht hr0 hip0 hbp henc hp => simp [isSendEvent] at hevh
    | captureNoSend t ht hr0 hip0 hbp henc => rw [hip0] at hip; exact absurd hip (by simp)
    | stop t ht =>
      exact Or.inl (running_false_trace htr2 (fun f hf => (hevt f hf).2.2) rfl)
    | close t ht =>
      exact Or.inl (running_false_trace htr2 (fun f hf => (hevt f hf).2.2) rfl)
    | timeout t tS ht htS h5 =>
      refine Or.inr (Or.inr ⟨t, tS, List.mem_cons_self _ _, htm tS htS, h5, ?_⟩)
      exact now_mono_trace htr2

lemma seq_step_other {cap : Nat → Nat} {enc : Nat → String} {vts : Nat → Int}
    {disp : Option (Nat × Nat)} {comp : Comp} {st : MachState} {e : TEvent}
    {st' : MachState} (hs : Step cap enc vts disp comp st e st')
    (hns : isSendEvent e = false) (hnc : isCaptureEvent e = false) :
    st'.feed.frameSequence = st.feed.frameSequence := by
  cases hs with
  | start t ht hr => rfl
  | stop t ht => rfl
  | close t ht => rfl
  | send t p ht hr hip hbp henc hp => simp [isSendEvent] at hns
  | captureNoSend t ht hr hip hbp henc => simp [isCaptureEvent] at hnc
  | recv t m ht hr => exact onMsg_frameSequence comp st.feed m
  | recvJunk t ht hr => rfl
  | timeout t tS ht htS h5 => rfl

lemma seq_trace_other {cap : Nat → Nat} {enc : Nat → String} {vts : Nat → Int}
    {disp : Option (Nat × Nat)} {comp : Comp} {st : MachState} {l : List TEvent}
    {st' : MachState} (htr : Trace cap enc vts disp comp st l st') :
    (∀ e ∈ l, isSendEvent e = false ∧ isCaptureEvent e = false) →
    st'.feed.frameSequence = st.feed.frameSequence := by
  induction htr with
  | nil => exact fun _ => rfl
  | @cons st e st2 es st3 hstep htr2 ih =>
    intro hev
    rw [ih (fun f hf => hev f (List.mem_cons_of_mem e hf))]
    exact seq_step_other hstep (hev e (List.mem_cons_self e es)).1
      (hev e (List.mem_cons_self e es)).2

/-! ## Claim theorems -/

/-- **C1.**  In `VideoFeed`, `DriverVideoFeed` and the `CameraFeed` of
`SafeDrivingPage`, for every inbound frame-result message (`"frame_result"`
payloads in `VideoFeed`; any non-`"ready"` payload in the other two): if its
`frame_id` is a key of the pending-frames map, the frame stored under that
exact id becomes the displayed captured frame and the message becomes the
displayed latest result; if not, both displayed references are left
unchanged and the result is dropped for display purposes. -/
theorem frameResult_match_controls_display (s : FeedState) (m : Msg) :
    (m.mtype = "frame_result" →
      (mapHas s.pending m.frame_id = true →
        ∃ f, mapGet s.pending m.frame_id = some f ∧
          (videoFeedOnMessage s m).capturedFrame = some f ∧
          (videoFeedOnMessage s m).latestResult = some m) ∧
      (mapHas s.pending m.frame_id = false →
        (videoFeedOnMessage s m).capturedFrame = s.capturedFrame ∧
        (videoFeedOnMessage s m).latestResult = s.latestResult)) ∧
    (m.mtype ≠ "ready" →
      (mapHas s.pending m.frame_id = true →
        ∃ f, mapGet s.pending m.frame_id = some f ∧
          (driverOnMessage s m).capturedFrame = some f ∧
          (driverOnMessage s m).latestResult = some m) ∧
      (mapHas s.pending m.frame_id = false →
        (driverOnMessage s m).capturedFrame = s.capturedFrame ∧
        (driverOnMessage s m).latestResult = s.latestResult)) ∧
    (m.mtype ≠ "ready" →
      (mapHas s.pending m.frame_id = true →
        ∃ f, mapGet s.pending m.frame_id = some f ∧
          (cameraFeedOnMessage s m).capturedFrame = some f ∧
          (cameraFeedOnMessage s m).latestResult = some m) ∧
      (mapHas s.pending m.frame_id = false →
        (cameraFeedOnMessage s m).capturedFrame = s.capturedFrame ∧
        (cameraFeedOnMessage s m).latestResult = s.latestResult)) := by
  refine ⟨fun ht => ⟨fun h => ?_, fun h => ?_⟩,
    fun ht => ⟨fun h => ?_, fun h => ?_⟩, fun ht => ⟨fun h => ?_, fun h => ?_⟩⟩
  · obtain ⟨v, hget, _⟩ := mapGet_mem h
    exact ⟨v, hget, by simp [videoFeedOnMessage, ht, h, hget], by
      simp [videoFeedOnMessage, ht, h]⟩
  · constructor <;> simp [videoFeedOnMessage, ht, h]
  · obtain ⟨v, hget, _⟩ := mapGet_mem h
    exact ⟨v, hget, by simp [driverOnMessage, ht, h, hget], by
      simp [driverOnMessage, ht, h]⟩
  · constructor <;> simp [driverOnMessage, ht, h]
  · obtain ⟨v, hget, _⟩ := mapGet_mem h
    exact ⟨v, hget, by simp [cameraFeedOnMessage, ht, h, hget], by
      simp [cameraFeedOnMessage, ht, h]⟩
  · constructor <;> simp [cameraFeedOnMessage, ht, h]

/-- **C7.**  When a `"frame_result"` for id `k` is matched, the handler
removes the entry for `k` and every entry with a smaller key, and keeps
exactly the entries with larger keys (all three components). -/
theorem match_prunes_older (s : FeedState) (m : Msg) :
    (m.mtype = "frame_result" → mapHas s.pending m.frame_id = true →
      ∀ kv : Nat × Nat, kv ∈ (videoFeedOnMessage s m).pending ↔
        kv ∈ s.pending ∧ m.frame_id < kv.1) ∧
    (m.mtype ≠ "ready" → mapHas s.pending m.frame_id = true →
      ∀ kv : Nat × Nat, kv ∈ (driverOnMessage s m).pending ↔
        kv ∈ s.pending ∧ m.frame_id < kv.1) ∧
    (m.mtype ≠ "ready" → mapHas s.pending m.frame_id = true →
      ∀ kv : Nat × Nat, kv ∈ (cameraFeedOnMessage s m).pending ↔
        kv ∈ s.pending ∧ m.frame_id < kv.1) := by
  refine ⟨fun ht h kv => ?_, fun ht h kv => ?_, fun ht h kv => ?_⟩ <;>
    first
      | (rw [show (videoFeedOnMessage s m).pending =
            cleanupPending s.pending m.frame_id by
            simp [videoFeedOnMessage, ht, h]]
         exact mem_cleanupPending)
      | (rw [show (driverOnMessage s m).pending =
            cleanupPending s.pending m.frame_id by
            simp [driverOnMessage, ht, h]]
         exact mem_cleanupPending)
      | (rw [show (cameraFeedOnMessage s m).pending =
            cleanupPending s.pending m.frame_id by
            simp [cameraFeedOnMessage, ht, h]]
         exact mem_cleanupPending)

lemma countViolations_eq (dets : List Detection) :
    countViolations dets =
      (dets.filter (fun d => isViolationCls (clsOf d))).length := by
  have key : ∀ (l : List Detection) (n : Nat),
      l.foldl (fun acc d => if isViolationCls (clsOf d) then acc + 1 else acc) n =
        n + (l.filter (fun d => isViolationCls (clsOf d))).length := by
    intro l
    induction l with
    | nil => simp
    | cons d l ih =>
      intro n
      by_cases h : isViolationCls (clsOf d) <;> simp [h, ih] <;> omega
  simpa using key dets 0

/-- **C9.**  The compliance score of `StatsPanel` is `max(0, 100 - 20 * v)`:
`v` counts detections whose lowercased class name starts with `"no "` or
`"no_"`; it always lies in `[0, 100]` and equals 100 exactly when there is
no such violation detection. -/
theorem compliance_score_spec (dets : List Detection) :
    calculatedScore dets =
      max 0 (100 - 20 *
        ((dets.filter (fun d => isViolationCls (clsOf d))).length : Int)) ∧
    0 ≤ calculatedScore dets ∧ calculatedScore dets ≤ 100 ∧
    (calculatedScore dets = 100 ↔
      dets.filter (fun d => isViolationCls (clsOf d)) = []) := by
  have hv := countViolations_eq dets
  refine ⟨by rw [calculatedScore, hv], le_max_left _ _,
    max_le (by norm_num) (by omega), ?_⟩
  rw [calculatedScore, hv]
  constructor
  · intro h
    rcases max_choice (0 : Int)
        (100 - 20 * ((dets.filter (fun d => isViolationCls (clsOf d))).length : Int))
      with hm | hm <;> rw [hm] at h
    · exact absurd h (by norm_num)
    · have h0 : (dets.filter (fun d => isViolationCls (clsOf d))).length = 0 := by
        omega
      exact List.length_eq_zero.mp h0
  · intro h
    rw [h]
    norm_num

/-- **C10.**  The violation log of `VideoFeed` never exceeds 12 entries in any
reachable state; when a matched result carries `n` violations, the `n` new
annotated entries are prepended ahead of the existing ones and the combined
list is truncated to its first 12 elements. -/
theorem violation_log_spec :
    (∀ (cap : Nat → Nat) (enc : Nat → String) (vts : Nat → Int)
       (disp : Option (Nat × Nat)) (evs : List TEvent) (st : MachState),
       Trace cap enc vts disp Comp.video initState evs st →
       st.feed.violationLog.length ≤ 12) ∧
    (∀ (s : FeedState) (m : Msg) (vs : List Violation),
       m.mtype = "frame_result" → mapHas s.pending m.frame_id = true →
       m.violations = some vs → vs ≠ [] →
       (videoFeedOnMessage s m).violationLog =
         (annotate m vs ++ s.violationLog).take 12) := by
  constructor
  · intro cap enc vts disp evs st htr
    exact (inv_trace htr (inv_initState cap)).2.2.2.1
  · intro s m vs ht h hvs hne
    have hlen : vs.length ≠ 0 := fun h0 => hne (List.length_eq_zero.mp h0)
    simp [videoFeedOnMessage, ht, h, logUpdate, hvs, hlen]

/-- **C2.**  In `VideoFeed`, at every reachable state, whenever a latest
result is displayed, the displayed captured frame is exactly the frame that
was captured for the `frame_id` of that result — the renderer never paints a
frame overlaid with detections computed from a different frame.  Moreover
the handler only ever updates the two displayed references together, from
one matched (frame, result) pair. -/
theorem display_sync_same_frame :
    (∀ (cap : Nat → Nat) (enc : Nat → String) (vts : Nat → Int)
       (disp : Option (Nat × Nat)) (evs : List TEvent) (st : MachState),
       Trace cap enc vts disp Comp.video initState evs st →
       ∀ r, st.feed.latestResult = some r →
         st.feed.capturedFrame = some (cap r.frame_id)) ∧
    (∀ (s : FeedState) (m : Msg),
       ((videoFeedOnMessage s m).capturedFrame = s.capturedFrame ∧
        (videoFeedOnMessage s m).latestResult = s.latestResult) ∨
       (mapHas s.pending m.frame_id = true ∧
        (videoFeedOnMessage s m).capturedFrame = mapGet s.pending m.frame_id ∧
        (videoFeedOnMessage s m).latestResult = some m)) := by
  constructor
  · intro cap enc vts disp evs st htr
    exact (inv_trace htr (inv_initState cap)).2.1
  · intro s m
    rcases onMsg_cases Comp.video s m with ⟨hc, hl, _, _⟩ | ⟨hhas, hc, hl, _, _⟩
    · exact Or.inl ⟨hc, hl⟩
    · exact Or.inr ⟨hhas, hc, hl⟩

/-- **C4.**  In all three pending-map components the map is bounded: a frame
is only inserted when the map holds at most 2 entries, so no reachable state
holds more than 3, and the eviction branch guarded by a size above 100 is
never taken at any send of any trace (`insertFrame` coincides with the plain
`mapSet`). -/
theorem pending_map_bounded :
    ∀ (cap : Nat → Nat) (enc : Nat → String) (vts : Nat → Int)
      (disp : Option (Nat × Nat)) (comp : Comp) (evs : List TEvent)
      (st : MachState),
      Trace cap enc vts disp comp initState evs st →
      st.feed.pending.length ≤ 3 ∧
      (∀ (l₁ : List TEvent) (t : Nat) (p : Payload) (l₂ : List TEvent),
        evs = l₁ ++ TEvent.send t p :: l₂ →
        ∃ mid mid',
          Trace cap enc vts disp comp initState l₁ mid ∧
          Step cap enc vts disp comp mid (TEvent.send t p) mid' ∧
          insertFrame cap mid =
            mapSet mid.feed.pending (mid.feed.frameSequence + 1)
              (cap (mid.feed.frameSequence + 1))) := by
  intro cap enc vts disp comp evs st htr
  constructor
  · exact (inv_trace htr (inv_initState cap)).2.2.1
  · intro l₁ t p l₂ hdec
    subst hdec
    obtain ⟨mid, mid', h1, h2, _⟩ := trace_append htr
    refine ⟨mid, mid', h1, h2, ?_⟩
    cases h2 with
    | send t p ht hr hip hbp henc hp =>
      have hle : (mapSet mid.feed.pending (mid.feed.frameSequence + 1)
          (cap (mid.feed.frameSequence + 1))).length ≤ 3 :=
        le_trans (length_mapSet _ _ _) (by omega)
      unfold insertFrame evictOldest
      rw [if_neg (by omega)]

/-- **C8.**  Every payload sent by the pending-map components is the current
video frame drawn onto the fixed 640 by 480 offscreen canvas and
JPEG-encoded: its `capture_width`/`capture_height` are always 640/480, and
its `image` field is exactly the base64 body of the `image/jpeg` data URL of
the captured frame. -/
theorem payload_fixed_resolution :
    ∀ (cap : Nat → Nat) (enc : Nat → String) (vts : Nat → Int)
      (disp : Option (Nat × Nat)) (comp : Comp) (evs : List TEvent)
      (st : MachState) (l₁ : List TEvent) (t : Nat) (p : Payload)
      (l₂ : List TEvent),
      Base64Ok enc →
      Trace cap enc vts disp comp initState evs st →
      evs = l₁ ++ TEvent.send t p :: l₂ →
      p.capture_width = 640 ∧ p.capture_height = 480 ∧
      p.image = enc (cap p.frame_id) ∧
      dataURL enc (cap p.frame_id) = "data:image/jpeg;base64," ++ p.image := by
  intro cap enc vts disp comp evs st l₁ t p l₂ hok htr hdec
  subst hdec
  obtain ⟨mid, mid', h1, h2, _⟩ := trace_append htr
  have hCv := (inv_trace h1 (inv_initState cap)).2.2.2.2.2
  cases h2 with
  | send t p ht hr hip hbp henc hp =>
    have hcv : theCanvas mid = (640, 480) := theCanvas_eq hCv
    have hb : encodeBody enc (cap (mid.feed.frameSequence + 1)) =
        some (enc (cap (mid.feed.frameSequence + 1))) :=
      encodeBody_ok enc _ (hok _).2
    have hfid : p.frame_id = mid.feed.frameSequence + 1 := by rw [hp]; rfl
    refine ⟨?_, ?_, ?_, ?_⟩
    · rw [hp]
      show (theCanvas mid).1 = 640
      rw [hcv]
    · rw [hp]
      show (theCanvas mid).2 = 480
      rw [hcv]
    · rw [hfid]
      rw [hp]
      show (encodeBody enc (cap (mid.feed.frameSequence + 1))).getD "" = _
      rw [hb]
      rfl
    · rw [hfid]
      rw [hp]
      show dataURL enc (cap (mid.feed.frameSequence + 1)) =
        "data:image/jpeg;base64," ++
          (encodeBody enc (cap (mid.feed.frameSequence + 1))).getD ""
      rw [hb]
      rfl

/-- **C6 (amended).**  Across the lifetime of a component instance the
outbound frame ids are consecutive: any two sends with no send or capture
between them differ by exactly 1, and the very first frame ever sent carries
id 1.  (`frameSequence` is a ref that survives `stopEverything`, so the ids
keep counting across sessions rather than restarting at 1; see the
counterexample.) -/
theorem frame_ids_consecutive :
    ∀ (cap : Nat → Nat) (enc : Nat → String) (vts : Nat → Int)
      (disp : Option (Nat × Nat)) (comp : Comp) (evs : List TEvent)
      (st : MachState),
      Trace cap enc vts disp comp initState evs st →
      (∀ (l₁ : List TEvent) (t : Nat) (p : Payload) (l₂ : List TEvent)
         (t' : Nat) (p' : Payload) (l₃ : List TEvent),
        evs = l₁ ++ TEvent.send t p :: (l₂ ++ TEvent.send t' p' :: l₃) →
        (∀ e ∈ l₂, isSendEvent e = false ∧ isCaptureEvent e = false) →
        p'.frame_id = p.frame_id + 1) ∧
      (∀ (l₁ : List TEvent) (t : Nat) (p : Payload) (l₂ : List TEvent),
        evs = l₁ ++ TEvent.send t p :: l₂ →
        (∀ e ∈ l₁, isSendEvent e = false ∧ isCaptureEvent e = false) →
        p.frame_id = 1) := by
  intro cap enc vts disp comp evs st htr
  constructor
  · intro l₁ t p l₂ t' p' l₃ hdec hev
    subst hdec
    obtain ⟨m1, m2, h1, hstep1, h3⟩ := trace_append htr
    obtain ⟨m3, m4, h4, hstep2, _⟩ := trace_append h3
    have hseq : m3.feed.frameSequence = m2.feed.frameSequence :=
      seq_trace_other h4 hev
    cases hstep1 with
    | send t p ht hr hip hbp henc hp =>
      cases hstep2 with
      | send t' p' ht' hr' hip' hbp' henc' hp' =>
        rw [hp, hp']
        show m3.feed.frameSequence + 1 = (m1.feed.frameSequence + 1) + 1
        rw [hseq]
        rfl
  · intro l₁ t p l₂ hdec hev
    subst hdec
    obtain ⟨m1, m2, h1, hstep1, _⟩ := trace_append htr
    have hseq : m1.feed.frameSequence = initState.feed.frameSequence :=
      seq_trace_other h1 hev
    cases hstep1 with
    | send t p ht hr hip hbp henc hp =>
      rw [hp]
      show m1.feed.frameSequence + 1 = 1
      rw [hseq]
      rfl

/-- **C3 (amended).**  Between two sends of a trace with no inbound message
and no session restart in between, a 5-second recovery timer of the current
session fired: it was scheduled at some send time `tS` at or before the
first send, and the second send happens at least 5000 ms after `tS` — but,
because the timers are never cancelled, possibly less than 5000 ms after the
first send itself (see the counterexample).  Independently, every send of
every trace happens from a state where the lock-step flag is clear and the
pending map holds at most 2 frames. -/
theorem lockstep_amended :
    ∀ (cap : Nat → Nat) (enc : Nat → String) (vts : Nat → Int)
      (disp : Option (Nat × Nat)) (comp : Comp) (evs : List TEvent)
      (st : MachState),
      Trace cap enc vts disp comp initState evs st →
      (∀ (l₁ : List TEvent) (t₁ : Nat) (p₁ : Payload) (l₂ : List TEvent)
         (t₂ : Nat) (p₂ : Payload) (l₃ : List TEvent),
        evs = l₁ ++ TEvent.send t₁ p₁ :: (l₂ ++ TEvent.send t₂ p₂ :: l₃) →
        (∀ e ∈ l₂, isRecvEvent e = false ∧ isSendEvent e = false ∧
          isStartEvent e = false) →
        ∃ tf tS, TEvent.timeout tf tS ∈ l₂ ∧ tS ≤ t₁ ∧ tS + 5000 ≤ tf ∧
          tf ≤ t₂) ∧
      (∀ (l₁ : List TEvent) (t : Nat) (p : Payload) (l₂ : List TEvent),
        evs = l₁ ++ TEvent.send t p :: l₂ →
        ∃ mid mid',
          Trace cap enc vts disp comp initState l₁ mid ∧
          Step cap enc vts disp comp mid (TEvent.send t p) mid' ∧
          mid.isProcessing = false ∧ ¬ 2 < mid.feed.pending.length) := by
  intro cap enc vts disp comp evs st htr
  constructor
  · intro l₁ t₁ p₁ l₂ t₂ p₂ l₃ hdec hev
    subst hdec
    obtain ⟨m1, m2, h1, hstep1, h3⟩ := trace_append htr
    obtain ⟨m3, m4, h4, hstep2, _⟩ := trace_append h3
    have hInv := inv_trace h1 (inv_initState cap)
    cases hstep1 with
    | send t₁ p₁ ht hr hip hbp henc hp =>
      have htm : ∀ x ∈ (sendPost cap m1 t₁).timers, x ≤ t₁ := by
        intro x hx
        rcases List.mem_append.mp hx with h | h
        · exact le_trans (hInv.2.2.2.2.1 x h) ht
        · rw [List.mem_singleton.mp h]
      have hgo := lockstep_go t₁ h4 hev rfl hr htm
      cases hstep2 with
      | send t₂ p₂ ht' hr' hip' hbp' henc' hp' =>
        rcases hgo with hdead | hflag | ⟨tf, tS, hmem, hS1, hS5, hfn⟩
        · rw [hr'] at hdead
          exact absurd hdead (by simp)
        · rw [hip'] at hflag
          exact absurd hflag (by simp)
        · exact ⟨tf, tS, hmem, hS1, hS5, le_trans hfn ht'⟩
  · intro l₁ t p l₂ hdec
    subst hdec
    obtain ⟨mid, mid', h1, h2, _⟩ := trace_append htr
    refine ⟨mid, mid', h1, h2, ?_, ?_⟩ <;> cases h2 with
    | send t p ht hr hip hbp henc hp => first | exact hip | exact hbp

/-! ## Concrete traces -/

/-- The stale-timer scenario: frame 1 is sent at 0 and acknowledged at 4000,
frame 2 is sent at 4001, the (never cancelled) recovery timer of frame 1
fires at 5000 and clears the lock-step flag, and frame 3 goes out at 5001 —
only 1000 ms after frame 2, with no message in between. -/
lemma wTrace6 : Trace capW encW vtsW none Comp.video initState
    [TEvent.start 0, TEvent.send 0 wPay1, TEvent.recv 4000 (msgW 1),
     TEvent.send 4001 wPay2, TEvent.timeout 5000 0, TEvent.send 5001 wPay3]
    wSt6 :=
  Trace.cons (Step.start initState 0 (by decide) (by decide))
    (Trace.cons (Step.send wSt1 0 wPay1 (by decide) (by decide) (by decide)
        (by decide) ⟨"QUJD", by decide, by decide⟩ rfl)
      (Trace.cons (Step.recv wSt2 4000 (msgW 1) (by decide) (by decide))
        (Trace.cons (Step.send wSt3 4001 wPay2 (by decide) (by decide)
            (by decide) (by decide) ⟨"QUJD", by decide, by decide⟩ rfl)
          (Trace.cons (Step.timeout wSt4 5000 0 (by decide) (by decide)
              (by decide))
            (Trace.cons (Step.send wSt5 5001 wPay3 (by decide) (by decide)
                (by decide) (by decide) ⟨"QUJD", by decide, by decide⟩ rfl)
              (Trace.nil wSt6))))))

/-- A short run: start, send frame 1, receive its matched result. -/
lemma wTraceShort : Trace capW encW vtsW none Comp.video initState
    [TEvent.start 0, TEvent.send 0 wPay1, TEvent.recv 0 (msgW 1)] wSt3b :=
  Trace.cons (Step.start initState 0 (by decide) (by decide))
    (Trace.cons (Step.send wSt1 0 wPay1 (by decide) (by decide) (by decide)
        (by decide) ⟨"QUJD", by decide, by decide⟩ rfl)
      (Trace.cons (Step.recv wSt2 0 (msgW 1) (by decide) (by decide))
        (Trace.nil wSt3b)))

/-- The restart scenario: one frame is sent, the feed is stopped, a new
session starts, and the next frame goes out — carrying id 2, not 1, because
`frameSequence` is never reset. -/
lemma wTraceRestart : Trace capW encW vtsW none Comp.video initState
    [TEvent.start 0, TEvent.send 0 wPay1, TEvent.stop 0, TEvent.start 0,
     TEvent.send 0 wrPay2] wrSt5 :=
  Trace.cons (Step.start initState 0 (by decide) (by decide))
    (Trace.cons (Step.send wSt1 0 wPay1 (by decide) (by decide) (by decide)
        (by decide) ⟨"QUJD", by decide, by decide⟩ rfl)
      (Trace.cons (Step.stop wSt2 0 (by decide))
        (Trace.cons (Step.start wrSt3 0 (by decide) (by decide))
          (Trace.cons (Step.send wrSt4 0 wrPay2 (by decide) (by decide)
              (by decide) (by decide) ⟨"QUJD", by decide, by decide⟩ rfl)
            (Trace.nil wrSt5)))))

/-- `ErgonomicsPage` sends a second frame 100 ms after the first although no
result ever arrived. -/
lemma ergo_two_sends : SimpleTrace ergoOnMessage simpleInit
    [SimpleEvent.send 100, SimpleEvent.send 200]
    { latestResult := none, lastSendTime := 200, now := 200 } :=
  SimpleTrace.cons (SimpleStep.send simpleInit 100 (by decide) (by decide))
    (SimpleTrace.cons
      (SimpleStep.send { simpleInit with lastSendTime := 100, now := 100 } 200
        (by decide) (by decide))
      (SimpleTrace.nil _))

/-- `ErgonomicsPage` displays a result although no frame was ever sent. -/
lemma ergo_unmatched_result : SimpleTrace ergoOnMessage simpleInit
    [SimpleEvent.recv 0 mResW]
    { latestResult := some mResW, lastSendTime := 0, now := 0 } :=
  SimpleTrace.cons (SimpleStep.recv simpleInit 0 mResW (by decide))
    (SimpleTrace.nil _)

/-- **C5 (amended).**  `VideoFeed`, `DriverVideoFeed` and `CameraFeed` do
implement the pacing-and-correlation protocol: every send happens with the
lock-step flag clear and at most 2 pending frames, and an unmatched result
leaves the displayed references unchanged.  `ErgonomicsPage` and
`VehicleControlPage` do not: they send on a fixed 100 ms interval regardless
of unacknowledged frames, and store any `"result"` payload without matching
it to an outbound frame. -/
theorem protocol_three_components_only :
    (∀ (cap : Nat → Nat) (enc : Nat → String) (vts : Nat → Int)
       (disp : Option (Nat × Nat)) (comp : Comp) (evs : List TEvent)
       (st : MachState) (l₁ : List TEvent) (t : Nat) (p : Payload)
       (l₂ : List TEvent),
      Trace cap enc vts disp comp initState evs st →
      evs = l₁ ++ TEvent.send t p :: l₂ →
      ∃ mid mid',
        Trace cap enc vts disp comp initState l₁ mid ∧
        Step cap enc vts disp comp mid (TEvent.send t p) mid' ∧
        mid.isProcessing = false ∧ ¬ 2 < mid.feed.pending.length) ∧
    (∀ (comp : Comp) (s : FeedState) (m : Msg),
      mapHas s.pending m.frame_id = false →
      (onMsg comp s m).latestResult = s.latestResult ∧
      (onMsg comp s m).capturedFrame = s.capturedFrame) ∧
    (¬ ErgoNeverTwoSendsUnacked) ∧
    (∀ (s : SimpleState) (m : Msg), m.mtype = "result" →
      (ergoOnMessage s m).latestResult = some m ∧
      (vehicleOnMessage s m).latestResult = some m) := by
  refine ⟨?_, ?_, ?_, ?_⟩
  · intro cap enc vts disp comp evs st l₁ t p l₂ htr hdec
    subst hdec
    obtain ⟨mid, mid', h1, h2, _⟩ := trace_append htr
    refine ⟨mid, mid', h1, h2, ?_, ?_⟩ <;> cases h2 with
    | send t p ht hr hip hbp henc hp => first | exact hip | exact hbp
  · intro comp s m h
    rcases onMsg_cases comp s m with ⟨hc, hl, _, _⟩ | ⟨hhas, _, _, _, _⟩
    · exact ⟨hl, hc⟩
    · rw [h] at hhas
      exact absurd hhas (by simp)
  · intro h
    exact h _ _ [] 100 [] 200 [] ergo_two_sends rfl
      (fun e he => absurd he (List.not_mem_nil e))
  · intro s m ht
    constructor <;> simp [ergoOnMessage, vehicleOnMessage, ht]

/-- **C5 (counterexample).**  The claim fails for `ErgonomicsPage` (and the
identical `VehicleControlPage`): it sends a second frame while the first is
unacknowledged, and it displays results that match no outbound frame. -/
theorem five_component_protocol_false : ¬ FiveComponentProtocol := by
  rintro ⟨h1, h2⟩
  have hused := h2 _ _ ergo_unmatched_result
    (by
      intro e he t
      rw [List.mem_singleton] at he
      subst he
      simp)
  exact absurd hused (by decide)

/-- **C6 (counterexample).**  In the restart scenario the first frame of the
second streaming session carries `frame_id` 2, not 1. -/
theorem session_restart_id_not_one : ¬ SessionRestartsAtOne := by
  intro h
  have h2 := h capW encW vtsW none Comp.video _ wrSt5
    [TEvent.start 0, TEvent.send 0 wPay1, TEvent.stop 0] 0 [] 0 wrPay2 []
    wTraceRestart rfl (fun e he => absurd he (List.not_mem_nil e))
  exact absurd h2 (by decide)

/-- **C3 (counterexample).**  In the stale-timer scenario frame 3 is sent
1000 ms after frame 2 with no message received in between: the literal
five-second guarantee fails. -/
theorem lockstep_literal_false : ¬ LockStepLiteral := by
  intro h
  have hev : ∀ e ∈ [TEvent.timeout 5000 0],
      isRecvEvent e = false ∧ isSendEvent e = false ∧ isStartEvent e = false := by
    intro e he
    rw [List.mem_singleton] at he
    subst he
    exact ⟨rfl, rfl, rfl⟩
  have h2 := h capW encW vtsW none Comp.video _ wSt6
    [TEvent.start 0, TEvent.send 0 wPay1, TEvent.recv 4000 (msgW 1)]
    4001 wPay2 [TEvent.timeout 5000 0] 5001 wPay3 [] wTrace6 rfl hev
  exact absurd h2 (by decide)

/-! ## Witnesses -/

theorem frameResult_match_controls_display_witness :
    (∃ f, mapGet sW1.pending (msgW 7).frame_id = some f ∧
      (videoFeedOnMessage sW1 (msgW 7)).capturedFrame = some f ∧
      (videoFeedOnMessage sW1 (msgW 7)).latestResult = some (msgW 7)) ∧
    ((driverOnMessage sW1 (msgW 9)).capturedFrame = sW1.capturedFrame ∧
     (driverOnMessage sW1 (msgW 9)).latestResult = sW1.latestResult) ∧
    ((cameraFeedOnMessage sW1 (msgW 9)).capturedFrame = sW1.capturedFrame ∧
     (cameraFeedOnMessage sW1 (msgW 9)).latestResult = sW1.latestResult) :=
  ⟨((frameResult_match_controls_display sW1 (msgW 7)).1 rfl).1 (by decide),
   ((frameResult_match_controls_display sW1 (msgW 9)).2.1 (by decide)).2
     (by decide),
   ((frameResult_match_controls_display sW1 (msgW 9)).2.2 (by decide)).2
     (by decide)⟩

theorem display_sync_same_frame_witness :
    wSt3b.feed.latestResult = some (msgW 1) ∧
    wSt3b.feed.capturedFrame = some (capW 1) :=
  ⟨by decide,
   display_sync_same_frame.1 capW encW vtsW none _ wSt3b wTraceShort (msgW 1)
     (by decide)⟩

theorem lockstep_amended_witness :
    ∃ tf tS, TEvent.timeout tf tS ∈ [TEvent.timeout 5000 0] ∧ tS ≤ 4001 ∧
      tS + 5000 ≤ tf ∧ tf ≤ 5001 :=
  (lockstep_amended capW encW vtsW none Comp.video _ wSt6 wTrace6).1
    [TEvent.start 0, TEvent.send 0 wPay1, TEvent.recv 4000 (msgW 1)]
    4001 wPay2 [TEvent.timeout 5000 0] 5001 wPay3 [] rfl
    (by
      intro e he
      rw [List.mem_singleton] at he
      subst he
      exact ⟨rfl, rfl, rfl⟩)

theorem pending_map_bounded_witness : wSt3b.feed.pending.length ≤ 3 :=
  (pending_map_bounded capW encW vtsW none Comp.video _ wSt3b wTraceShort).1

theorem protocol_three_components_only_witness :
    (onMsg Comp.video sW1 (msgW 9)).latestResult = sW1.latestResult ∧
    (ergoOnMessage simpleInit mResW).latestResult = some mResW :=
  ⟨(protocol_three_components_only.2.1 Comp.video sW1 (msgW 9) (by decide)).1,
   (protocol_three_components_only.2.2.2 simpleInit mResW rfl).1⟩

theorem frame_ids_consecutive_witness :
    wPay2.frame_id = wPay1.frame_id + 1 ∧ wPay1.frame_id = 1 :=
  ⟨(frame_ids_consecutive capW encW vtsW none Comp.video _ wSt6 wTrace6).1
      [TEvent.start 0] 0 wPay1 [TEvent.recv 4000 (msgW 1)] 4001 wPay2
      [TEvent.timeout 5000 0, TEvent.send 5001 wPay3] rfl
      (by
        intro e he
        rw [List.mem_singleton] at he
        subst he
        exact ⟨rfl, rfl⟩),
   (frame_ids_consecutive capW encW vtsW none Comp.video _ wSt6 wTrace6).2
      [TEvent.start 0] 0 wPay1
      [TEvent.recv 4000 (msgW 1), TEvent.send 4001 wPay2,
       TEvent.timeout 5000 0, TEvent.send 5001 wPay3] rfl
      (by
        intro e he
        rw [List.mem_singleton] at he
        subst he
        exact ⟨rfl, rfl⟩)⟩

theorem match_prunes_older_witness :
    (3, 30) ∈ (videoFeedOnMessage sW7 (msgW 2)).pending ∧
    (1, 10) ∉ (videoFeedOnMessage sW7 (msgW 2)).pending :=
  ⟨((match_prunes_older sW7 (msgW 2)).1 rfl (by decide) (3, 30)).mpr
      ⟨by decide, by decide⟩,
   fun hmem =>
     absurd (((match_prunes_older sW7 (msgW 2)).1 rfl (by decide) (1, 10)).mp
       hmem).2 (by decide)⟩

theorem payload_fixed_resolution_witness :
    wPay1.capture_width = 640 ∧ wPay1.capture_height = 480 ∧
    wPay1.image = encW (capW wPay1.frame_id) ∧
    dataURL encW (capW wPay1.frame_id) = "data:image/jpeg;base64," ++ wPay1.image :=
  payload_fixed_resolution capW encW vtsW none Comp.video _ wSt3b
    [TEvent.start 0] 0 wPay1 [TEvent.recv 0 (msgW 1)]
    (fun _ => ⟨by show ("QUJD" : String) ≠ ""; decide,
      by show ',' ∉ ("QUJD" : String).data; decide⟩)
    wTraceShort rfl

theorem violation_log_spec_witness :
    initState.feed.violationLog.length ≤ 12 ∧
    (videoFeedOnMessage sW1 mV).violationLog =
      (annotate mV [vW] ++ sW1.violationLog).take 12 :=
  ⟨violation_log_spec.1 capW encW vtsW none [] initState (Trace.nil initState),
   violation_log_spec.2 sW1 mV [vW] rfl (by decide) rfl (by decide)⟩

end Siteguard
